import Mathlib

/-!
Verification of `awsspotmonitor/spot_monitor.py` against its specification.

The Python module is shallowly embedded below: pure functions become Lean
functions, Python exceptions become `Except`, Python floats become `ℚ`
(the arithmetic in the module is exact: max/min, sums, division, `*1.05`,
midpoints), and the provider (boto connection) becomes explicit function
arguments.  Python-specific semantics that matter are embedded faithfully:
`x in s` where `s` is a *string* is a substring test, tuple membership is
element equality, `len(a) - len(b)` is integer subtraction, and a falsy
string (`""`) fails an `if s:` test.
-/

namespace AwsSpotMonitor

/-- Embeds `Request.State` (spot_monitor.py, lines 41-48): the six abstract
request states. -/
inductive State where
  | Dead
  | Terminated
  | Pending
  | Holding
  | Fulfilled
  | Marked
deriving DecidableEq, Repr

/-- Helper: `needle` is an element-wise prefix of `hay`. -/
def listPrefixEq : List Char → List Char → Bool
  | [], _ => true
  | _ :: _, [] => false
  | a :: as, b :: bs => a = b && listPrefixEq as bs

/-- Helper: `needle` occurs contiguously inside `hay`. -/
def listSubstr (needle hay : List Char) : Bool :=
  if listPrefixEq needle hay then true
  else
    match hay with
    | [] => false
    | _ :: t => listSubstr needle t

/-- Embeds the Python expression `needle in hay` when `hay` is a `str`:
True iff `needle` is a contiguous substring of `hay` (the empty string is a
substring of every string). -/
def pyStrIn (needle hay : String) : Bool :=
  listSubstr needle.data hay.data

/-- Embeds `Request.state` (spot_monitor.py, lines 62-99).  Two Python
details are preserved exactly as written in the source:
1. line 67-68 tests `self.req.status.code in ('marked-for-termination')`;
   the parenthesized expression is a plain string, not a tuple, so this is
   a substring test;
2. lines 71-72 list `'instance-terminated-by-price'` with no trailing
   comma before `'instance-terminated-by-user'`, so Python concatenates
   the two adjacent literals into the single tuple element
   `'instance-terminated-by-priceinstance-terminated-by-user'`. -/
def classify (code : String) : State :=
  if pyStrIn code "marked-for-termination" then State.Marked
  else if ["instance-terminated-by-priceinstance-terminated-by-user",
           "spot-instance-terminated-by-user",
           "instance-terminated-no-capacity",
           "instance-terminated-capacity-oversubscribed",
           "instance-terminated-launch-group-constraint"].contains code then
    State.Terminated
  else if ["pending-evaluation", "pending-fulfillment"].contains code then
    State.Pending
  else if ["capacity-not-available", "capacity-oversubscribed", "price-too-low",
           "not-scheduled-yet", "launch-group-constraint", "az-group-constraint",
           "placement-group-constraint", "constraint-not-fulfillable"].contains code then
    State.Holding
  else if ["fulfilled", "request-canceled-and-instance-running"].contains code then
    State.Fulfilled
  else State.Dead

/-! ## Timestamps: `datetime.strptime` with format `%Y-%m-%dT%H:%M:%S` -/

/-- A parsed calendar timestamp (the fields CPython's `datetime` validates). -/
structure DateTime where
  year : Nat
  month : Nat
  day : Nat
  hour : Nat
  minute : Nat
  second : Nat
deriving DecidableEq, Repr

/-- Consume exactly `n` decimal digits, returning their value (CPython's
percent-Y directive matches exactly four digits). -/
def takeExactDigits : Nat → Nat → List Char → Option (Nat × List Char)
  | 0, acc, cs => some (acc, cs)
  | n + 1, acc, c :: cs =>
      if c.isDigit then takeExactDigits n (acc * 10 + (c.toNat - 48)) cs else none
  | _ + 1, _, [] => none

/-- Consume one or two decimal digits, greedily (CPython's numeric
directives for month, day, hour, minute, second match one or two digits). -/
def takeOneTwoDigits : List Char → Option (Nat × List Char)
  | [] => none
  | [c] => if c.isDigit then some (c.toNat - 48, []) else none
  | c :: d :: cs =>
      if c.isDigit then
        if d.isDigit then some ((c.toNat - 48) * 10 + (d.toNat - 48), cs)
        else some (c.toNat - 48, d :: cs)
      else none

/-- Consume one expected literal character. -/
def expectChar (c : Char) : List Char → Option (List Char)
  | [] => none
  | d :: cs => if d = c then some cs else none

/-- Gregorian leap year, as CPython's calendar validation uses. -/
def leapYear (y : Nat) : Bool :=
  y % 4 == 0 && (y % 100 != 0 || y % 400 == 0)

/-- Number of days in a month of a given year. -/
def daysInMonth (y m : Nat) : Nat :=
  if m = 2 then (if leapYear y then 29 else 28)
  else if [4, 6, 9, 11].contains m then 30
  else 31

/-- Embeds `datetime.strptime(s, Request.DATETIME_FORMAT)` where the format
is the fixed string at spot_monitor.py line 39: four year digits, then
literal hyphen, month, hyphen, day, literal T, hour, colon, minute, colon,
second, end of input; field ranges are validated as the `datetime`
constructor does.  `none` embeds the `ValueError` CPython raises on any
mismatch. -/
def strptimeYmdHMS (s : String) : Option DateTime := do
  let cs := s.data
  let (y, cs) ← takeExactDigits 4 0 cs
  let cs ← expectChar '-' cs
  let (mo, cs) ← takeOneTwoDigits cs
  let cs ← expectChar '-' cs
  let (d, cs) ← takeOneTwoDigits cs
  let cs ← expectChar 'T' cs
  let (h, cs) ← takeOneTwoDigits cs
  let cs ← expectChar ':' cs
  let (mi, cs) ← takeOneTwoDigits cs
  let cs ← expectChar ':' cs
  let (sec, cs) ← takeOneTwoDigits cs
  if cs = [] ∧ 1 ≤ y ∧ 1 ≤ mo ∧ mo ≤ 12 ∧ 1 ≤ d ∧ d ≤ daysInMonth y mo ∧
      h ≤ 23 ∧ mi ≤ 59 ∧ sec ≤ 59 then
    some ⟨y, mo, d, h, mi, sec⟩
  else none

/-- Python's `str.strip()` whitespace set. -/
def pyIsSpace (c : Char) : Bool :=
  c = ' ' || c = '\t' || c = '\n' || c = '\r' || c = '\x0b' || c = '\x0c'

/-- Embeds Python's `s.strip()`: drop whitespace from both ends. -/
def pyStrip (s : String) : String :=
  String.mk (((s.data.dropWhile pyIsSpace).reverse.dropWhile pyIsSpace).reverse)

/-- The Python exceptions (and one spec-only error) that the embedded
operations can surface.  `zeroDivisionError` and `valueError` embed the
built-in exception classes; `otherProviderError` stands for any exception
from the provider other than `EC2ResponseError`; `insufficientPriceHistory`
is modelled from the spec only — the source defines no such error class,
and the constructor exists so the spec's claimed error can be compared with
what the code actually raises. -/
inductive PyError where
  | zeroDivisionError
  | valueError
  | otherProviderError
  | insufficientPriceHistory
deriving DecidableEq, Repr

/-- Embeds `Request.last_date` (spot_monitor.py, lines 50-55) applied to
the request's tag dictionary, with the memoisation stripped (the cached and
the recomputed value coincide).  The source reads
`s = self.req.tags.get('req_date', None)` and then evaluates
`datetime.strptime(s.strip(), fmt) if s else None`: an absent tag or a
falsy (empty) tag value yields `None`; a non-empty value is stripped and
parsed, and `strptime` raises `ValueError` when it does not parse —
embedded as `Except.error .valueError`. -/
def last_date (tags : List (String × String)) : Except PyError (Option DateTime) :=
  match tags.lookup "req_date" with
  | none => .ok none
  | some s =>
      if s = "" then .ok none
      else
        match strptimeYmdHMS (pyStrip s) with
        | some d => .ok (some d)
        | none => .error .valueError

/-! ## Price history and bid strategies -/

/-- Embeds `AwsSpotMonitor.get_price_info` (spot_monitor.py, lines
186-211) applied to the list of sampled prices the provider returned.
The loop keeps `high` (initial `0.0`), `low` (initial `10.0`) and `sum`
(initial `0.0`), updating `high` when `item.price > high` and `low` when
`item.price < low`; afterwards `avg = sum/len(items)`, which raises
`ZeroDivisionError` when the sample list is empty — embedded as the
explicit emptiness check.  Returns `(low, high, avg)`. -/
def get_price_info (items : List ℚ) : Except PyError (ℚ × ℚ × ℚ) :=
  let scan := items.foldl
    (fun (acc : ℚ × ℚ × ℚ) p =>
      let high := if p > acc.1 then p else acc.1
      let low := if p < acc.2.1 then p else acc.2.1
      (high, low, acc.2.2 + p))
    (0, 10, 0)
  if items.length = 0 then .error .zeroDivisionError
  else .ok (scan.2.1, scan.1, scan.2.2 / (items.length : ℚ))

/-- Embeds the strategy dispatch of `AwsSpotMonitor._get_price`
(spot_monitor.py, lines 304-333) once the statistics `(low, high, avg)`
have been obtained.  `u` is the value drawn by `random.random()` (only the
`'random'` branch reads it); `factor` is the literal `1.05`; any strategy
string other than `'high'`, `'random'` and `'average-high'` falls through
to the `'average'` branch, as the source's trailing `else` does. -/
def get_price_from_stats (strategy : String) (u : ℚ) (stats : ℚ × ℚ × ℚ)
    (recent_price : ℚ) : ℚ :=
  let low := stats.1
  let high := stats.2.1
  let avg := stats.2.2
  let factor : ℚ := 21 / 20
  if strategy = "high" then max high (recent_price * factor)
  else if strategy = "random" then
    let l := max low (recent_price * factor)
    let h := max high (recent_price * factor)
    l + |h - l| * u
  else if strategy = "average-high" then
    let a := max avg (recent_price * factor)
    a + |high - a| / 2
  else max avg (recent_price * factor)

/-- Modelled from the spec: the claimed `average-high` formula
`a + (stats.high - a) / 2` with `a = max(stats.average, rejected_price * 1.05)`,
written without the absolute value, to be compared with the formula the
source computes. -/
def spec_average_high (stats : ℚ × ℚ × ℚ) (rejected_price : ℚ) : ℚ :=
  let a := max stats.2.2 (rejected_price * (21 / 20))
  a + (stats.2.1 - a) / 2

/-! ## The submission retry loop -/

/-- One possible outcome of a `request_spot_instances` call: the provider
returns a list of requests, raises `EC2ResponseError` (which may or may
not be attributable to a too-low bid), or raises some other exception. -/
inductive SubmitOutcome where
  | ok (reqs : List String)
  | ec2ResponseError (priceTooLow : Bool)
  | otherError
deriving DecidableEq, Repr

/-- Embeds `AwsSpotMonitor.request_instance` (spot_monitor.py, lines
243-268) with its unbounded `while True` loop given explicit fuel
(`none` means the loop was still running when the fuel ran out).  Each
iteration first computes the bid outside the `try` block — so a failure in
`get_price_info` propagates — then calls the provider; the source's
`except EC2ResponseError` catches every `EC2ResponseError` and loops with
`recent_price = price`, while any other exception escapes the loop.  On
success the source returns `request[0] if request else None`.  `calls`
accumulates the bid of every submission call actually issued to the
provider. -/
def request_instance_aux (strategy : String) (u : ℚ) (items : List ℚ)
    (provider : ℚ → SubmitOutcome) :
    Nat → ℚ → List ℚ → Option (Except PyError (Option String) × List ℚ)
  | 0, _, _ => none
  | fuel + 1, recent_price, calls =>
    match get_price_info items with
    | .error e => some (.error e, calls)
    | .ok stats =>
      let price := get_price_from_stats strategy u stats recent_price
      match provider price with
      | .ok reqs => some (.ok reqs.head?, calls ++ [price])
      | .ec2ResponseError _ =>
          request_instance_aux strategy u items provider fuel price (calls ++ [price])
      | .otherError => some (.error .otherProviderError, calls ++ [price])

/-! ## The reconciliation pass: `check_requests` -/

/-- A spot-instance request as `check_requests` reads it: id, bid price,
raw provider status code, and the tag dictionary. -/
structure SpotReq where
  id : String
  price : ℚ
  code : String
  tags : List (String × String)
deriving DecidableEq, Repr

/-- A provider-reported EC2 instance as `_get_active_instances` reads it:
raw lifecycle state and the (possibly absent) spot request id. -/
structure Inst where
  state : String
  spot_instance_request_id : Option String
deriving DecidableEq, Repr

/-- Python truthiness of `instance.spot_instance_request_id`: `None` and
`''` are falsy, any other string is truthy. -/
def truthyOptStr : Option String → Bool
  | none => false
  | some s => s ≠ ""

/-- The per-instance test of `_get_active_instances` (spot_monitor.py,
line 347-348): `instance.state not in ('terminated', 'shutting-down') and
instance.spot_instance_request_id`. -/
def pyActive (i : Inst) : Bool :=
  !(["terminated", "shutting-down"].contains i.state) &&
    truthyOptStr i.spot_instance_request_id

/-- The inner `for instance in reservation.instances` loop of
`_get_active_instances`, appending each active instance to `lst`. -/
def scan_reservation (lst : List Inst) (res : List Inst) : List Inst :=
  res.foldl (fun lst i => if pyActive i then lst ++ [i] else lst) lst

/-- Embeds `AwsSpotMonitor._get_active_instances` (spot_monitor.py, lines
335-350) applied to the reservations the provider returned (each
reservation carries its list of instances). -/
def get_active_instances (reservations : List (List Inst)) : List Inst :=
  reservations.foldl scan_reservation []

/-- Embeds the bucket map built by `AwsSpotMonitor._bucket_requests`
(spot_monitor.py, lines 270-302): the bucket of state `s` collects, in
fetch order, the requests whose status code classifies to `s` (the source
appends each request to `requests[req.state()]` while iterating in fetch
order, which yields exactly this filter). -/
def bucket (reqs : List SpotReq) (s : State) : List SpotReq :=
  reqs.filter (fun r => classify r.code = s)

/-- The observable actions of one reconciliation pass. -/
structure CheckResult where
  processed : List SpotReq
  corrective : Bool
  cancelled : List SpotReq
  max_holding_price : ℚ
  submitted : Option ℚ
deriving DecidableEq, Repr

/-- Embeds the first loop of `check_requests` (spot_monitor.py, lines
161-164): for each `Fulfilled` request, read `last_date` (which can raise
`ValueError` on a malformed tag, aborting the pass) and collect the
requests whose `last_date` is `None` — exactly those that are passed to
`process_fulfilled` and then marked. -/
def process_fulfilled_pass : List SpotReq → Except PyError (List SpotReq)
  | [] => .ok []
  | r :: rest =>
    match last_date r.tags with
    | .error e => .error e
    | .ok none => (process_fulfilled_pass rest).map (fun l => r :: l)
    | .ok (some _) => process_fulfilled_pass rest

/-- Embeds `AwsSpotMonitor.check_requests` (spot_monitor.py, lines
147-184) as a function of the fetched requests and reservations, returning
the actions taken.  After processing newly fulfilled requests, the source
tests `(len(instances) - len(reqs[Marked])) < 1` (Python integer
subtraction, hence `ℤ` here); inside that branch it cancels every
`Holding` request while folding `price = max(price, r.req.price)` from
`0`, and calls `request_instance(price)` — recorded as `submitted := some
price` — exactly when the `Pending` bucket is empty.  Otherwise no request
is cancelled and nothing is submitted.  Log-capture bookkeeping is I/O and
is not part of the result. -/
def check_requests (reqs : List SpotReq) (reservations : List (List Inst)) :
    Except PyError CheckResult :=
  match process_fulfilled_pass (bucket reqs State.Fulfilled) with
  | .error e => .error e
  | .ok processed =>
    let instances := get_active_instances reservations
    let marked := bucket reqs State.Marked
    if ((instances.length : ℤ) - (marked.length : ℤ)) < 1 then
      let holding := bucket reqs State.Holding
      let price := holding.foldl (fun p r => max p r.price) 0
      let pending := bucket reqs State.Pending
      .ok { processed := processed, corrective := true, cancelled := holding,
            max_holding_price := price,
            submitted := if pending.isEmpty then some price else none }
    else
      .ok { processed := processed, corrective := false, cancelled := [],
            max_holding_price := 0, submitted := none }

/-- A provider that raises a non-price `EC2ResponseError` for any bid of at
most `cut` and fulfils larger bids — used to exercise the retry loop's
exception handling. -/
def providerRejectBelow (cut : ℚ) : ℚ → SubmitOutcome :=
  fun p => if p ≤ cut then SubmitOutcome.ec2ResponseError false else SubmitOutcome.ok ["sir-2"]

/-!
## Theorems

Helper lemmas come first; the claim theorems (named `C1_...` to `C10_...`)
follow, each preceded by a doc comment naming the claim.
-/

/-- Unfolding of the `'high'` strategy branch. -/
theorem gpfs_high (u : ℚ) (stats : ℚ × ℚ × ℚ) (r : ℚ) :
    get_price_from_stats "high" u stats r = max stats.2.1 (r * (21 / 20)) := by
  simp [get_price_from_stats]

/-- Unfolding of the `'average-high'` strategy branch. -/
theorem gpfs_average_high (u : ℚ) (stats : ℚ × ℚ × ℚ) (r : ℚ) :
    get_price_from_stats "average-high" u stats r =
      max stats.2.2 (r * (21 / 20)) + |stats.2.1 - max stats.2.2 (r * (21 / 20))| / 2 := by
  simp [get_price_from_stats]

/-- Unfolding of the fall-through (`'average'`) strategy branch. -/
theorem gpfs_other (strategy : String) (u : ℚ) (stats : ℚ × ℚ × ℚ) (r : ℚ)
    (h1 : strategy ≠ "high") (h2 : strategy ≠ "random") (h3 : strategy ≠ "average-high") :
    get_price_from_stats strategy u stats r = max stats.2.2 (r * (21 / 20)) := by
  simp [get_price_from_stats, h1, h2, h3]

/-- C1.  The claim reads the source's `Terminated` branch as listing
`'instance-terminated-by-price'` and `'instance-terminated-by-user'`, but
the source (spot_monitor.py lines 71-72) omits the comma between the two
literals, so Python concatenates them into a single unmatched tuple
element and both codes fall through to `Dead`.  Every other row of the
claimed table does hold.  This evaluates the embedded classifier at the
failing inputs and at the agreeing ones. -/
theorem C1_classification_table :
    classify "instance-terminated-by-price" = State.Dead ∧
    classify "instance-terminated-by-user" = State.Dead ∧
    classify "marked-for-termination" = State.Marked ∧
    classify "pending-evaluation" = State.Pending ∧
    classify "pending-fulfillment" = State.Pending ∧
    classify "price-too-low" = State.Holding ∧
    classify "capacity-not-available" = State.Holding ∧
    classify "fulfilled" = State.Fulfilled ∧
    classify "request-canceled-and-instance-running" = State.Fulfilled := by
  decide

/-- C2.  The claim says every unknown status string — the empty string
included — classifies to `Dead`.  The source's first test
(spot_monitor.py line 67-68) is `code in ('marked-for-termination')`,
whose right operand is a plain string, so the test is a substring test:
the empty string (and any substring of `'marked-for-termination'`, such
as `'marked'`) classifies to `Marked`, not `Dead`.  Strings that are not
substrings of it and match no tuple do fall to `Dead`. -/
theorem C2_unknown_codes :
    classify "" = State.Marked ∧
    classify "marked" = State.Marked ∧
    classify "for-term" = State.Marked ∧
    classify "zzz-unknown" = State.Dead := by
  decide

/-- C5 counterexample.  A present but unparsable `req_date` tag value
makes `last_date` raise `ValueError` (embedded as `Except.error`) instead
of returning `None`. -/
theorem C5_counterexample :
    last_date [("req_date", "garbage")] = .error PyError.valueError := rfl

/-- C5 as amended.  `last_date` returns `None` when the tag is absent or
its value is the empty string; when the value is non-empty it is stripped
and parsed, and a parse failure raises `ValueError` (nothing catches it),
so a malformed tag aborts the pass rather than being treated as
unprocessed. -/
theorem C5_last_date_amended : ∀ (tags : List (String × String)),
    (tags.lookup "req_date" = none → last_date tags = .ok none) ∧
    (∀ v, tags.lookup "req_date" = some v →
      (v = "" → last_date tags = .ok none) ∧
      (v ≠ "" → strptimeYmdHMS (pyStrip v) = none →
        last_date tags = .error PyError.valueError) ∧
      (∀ d, v ≠ "" → strptimeYmdHMS (pyStrip v) = some d →
        last_date tags = .ok (some d))) := by
  intro tags
  constructor
  · intro h
    simp [last_date, h]
  · intro v hv
    refine ⟨?_, ?_, ?_⟩
    · intro he
      simp [last_date, hv, he]
    · intro hne hparse
      simp [last_date, hv, hne, hparse]
    · intro d hne hparse
      simp [last_date, hv, hne, hparse]

/-- C5 witness: the amended theorem applied at an absent tag and at the
concrete unparsable value `"garbage"`. -/
theorem C5_witness :
    last_date [] = .ok none ∧
    last_date [("req_date", "garbage")] = .error PyError.valueError := by
  constructor
  · exact (C5_last_date_amended []).1 rfl
  · exact ((C5_last_date_amended [("req_date", "garbage")]).2 "garbage" rfl).2.1
      (by decide) (by decide)

/-- C6 counterexample.  On an empty sample list the source evaluates
`sum/len(items)` with `len(items) = 0`, raising `ZeroDivisionError`; no
`InsufficientPriceHistory` error exists anywhere in the source, and no
submission call reaches the provider (the call log stays empty). -/
theorem C6_counterexample :
    get_price_info [] = .error PyError.zeroDivisionError ∧
    get_price_info [] ≠ .error PyError.insufficientPriceHistory ∧
    request_instance_aux "average-high" 0 [] (fun _ => SubmitOutcome.ok ["sir-new"]) 5 0 []
      = some (.error PyError.zeroDivisionError, []) := by
  refine ⟨rfl, ?_, rfl⟩
  intro h
  simp [get_price_info] at h

/-- C6 as amended.  With an empty price-history sample set the next-bid
computation fails with `ZeroDivisionError` (the division by `len(items)`;
the code defines no `InsufficientPriceHistory`), the error propagates out
of `request_instance`, and no submission call is made to the provider for
that attempt. -/
theorem C6_empty_history_amended :
    ∀ (strategy : String) (u recent : ℚ) (provider : ℚ → SubmitOutcome) (fuel : Nat),
      get_price_info [] = .error PyError.zeroDivisionError ∧
      request_instance_aux strategy u [] provider (fuel + 1) recent []
        = some (.error PyError.zeroDivisionError, []) := by
  intro strategy u recent provider fuel
  exact ⟨rfl, rfl⟩

/-- C8 counterexample.  With stats `{low:1, high:5, average:3}` and
`rejected_price = 6` the adjusted average is `a = 6.3 > high`; the source
(spot_monitor.py line 326) computes `a + abs(high-a)/2 = 6.95`, while the
claim's formula `a + (high-a)/2` gives `5.65`, and the source's value lies
strictly above `a`, not strictly below it. -/
theorem C8_counterexample :
    get_price_from_stats "average-high" 0 (1, 5, 3) 6 = 139 / 20 ∧
    spec_average_high (1, 5, 3) 6 = 113 / 20 ∧
    get_price_from_stats "average-high" 0 (1, 5, 3) 6 ≠ spec_average_high (1, 5, 3) 6 ∧
    max (3 : ℚ) (6 * (21 / 20)) < get_price_from_stats "average-high" 0 (1, 5, 3) 6 := by
  have hmax : max (3 : ℚ) (6 * (21 / 20)) = 63 / 10 := by
    rw [show (6 : ℚ) * (21 / 20) = 63 / 10 by norm_num,
      max_eq_right (by norm_num : (3 : ℚ) ≤ 63 / 10)]
  have habs : |(5 : ℚ) - 63 / 10| = 13 / 10 := by
    rw [show (5 : ℚ) - 63 / 10 = -(13 / 10) by norm_num, abs_neg,
      abs_of_pos (by norm_num : (0 : ℚ) < 13 / 10)]
  have hcode : get_price_from_stats "average-high" 0 (1, 5, 3) 6 = 139 / 20 := by
    rw [gpfs_average_high]
    show max (3 : ℚ) (6 * (21 / 20)) + |5 - max (3 : ℚ) (6 * (21 / 20))| / 2 = 139 / 20
    rw [hmax, habs]
    norm_num
  have hspec : spec_average_high (1, 5, 3) 6 = 113 / 20 := by
    show max (3 : ℚ) (6 * (21 / 20)) + (5 - max (3 : ℚ) (6 * (21 / 20))) / 2 = 113 / 20
    rw [hmax]
    norm_num
  refine ⟨hcode, hspec, ?_, ?_⟩
  · rw [hcode, hspec]
    norm_num
  · rw [hcode, hmax]
    norm_num

/-- C8 as amended.  For every stats and rejected price the
`'average-high'` strategy returns `a + |stats.high - a| / 2` with
`a = max(stats.average, rejected_price * 1.05)` — the source takes the
absolute value of the gap — and whenever `a` exceeds `stats.high` the
returned price lies strictly above `a`, not below it. -/
theorem C8_average_high_amended :
    ∀ (u low high avg r : ℚ),
      get_price_from_stats "average-high" u (low, high, avg) r =
        max avg (r * (21 / 20)) + |high - max avg (r * (21 / 20))| / 2 ∧
      (high < max avg (r * (21 / 20)) →
        max avg (r * (21 / 20)) < get_price_from_stats "average-high" u (low, high, avg) r) := by
  intro u low high avg r
  have hform := gpfs_average_high u (low, high, avg) r
  refine ⟨hform, ?_⟩
  intro hlt
  rw [hform]
  have habs : |high - max avg (r * (21 / 20))| = max avg (r * (21 / 20)) - high := by
    rw [abs_sub_comm]
    exact abs_of_pos (by linarith)
  rw [habs]
  linarith

/-- C8 witness: the amended theorem applied at stats `(1, 5, 3)` and
rejected price `6`, where the adjusted average exceeds the high. -/
theorem C8_witness :
    (5 : ℚ) < max (3 : ℚ) (6 * (21 / 20)) ∧
    max (3 : ℚ) (6 * (21 / 20)) < get_price_from_stats "average-high" 0 (1, 5, 3) 6 := by
  have hlt : (5 : ℚ) < max (3 : ℚ) (6 * (21 / 20)) := by
    rw [max_eq_right (by norm_num : (3 : ℚ) ≤ 6 * (21 / 20))]
    norm_num
  exact ⟨hlt, (C8_average_high_amended 0 1 5 3 6).2 hlt⟩

/-- C9.  With stats `{low:1, high:5, average:3}` and rejected price `0`
the strategies `'high'`, `'average-high'` and `'average'` return `5`, `4`
and `3` respectively; and for every strategy other than `'random'`
(including unrecognized strategy strings, which fall through to the
`'average'` branch), whenever `rejected_price * 1.05` exceeds all three
statistics the returned price is at least `rejected_price * 1.05`. -/
theorem C9_price_examples_and_floor :
    get_price_from_stats "high" 0 (1, 5, 3) 0 = 5 ∧
    get_price_from_stats "average-high" 0 (1, 5, 3) 0 = 4 ∧
    get_price_from_stats "average" 0 (1, 5, 3) 0 = 3 ∧
    ∀ (strategy : String) (u low high avg r : ℚ), strategy ≠ "random" →
      low < r * (21 / 20) → high < r * (21 / 20) → avg < r * (21 / 20) →
      r * (21 / 20) ≤ get_price_from_stats strategy u (low, high, avg) r := by
  have hmax30 : max (3 : ℚ) (0 * (21 / 20)) = 3 := by
    rw [show (0 : ℚ) * (21 / 20) = 0 by norm_num,
      max_eq_left (by norm_num : (0 : ℚ) ≤ 3)]
  refine ⟨?_, ?_, ?_, ?_⟩
  · rw [gpfs_high]
    show max (5 : ℚ) (0 * (21 / 20)) = 5
    rw [show (0 : ℚ) * (21 / 20) = 0 by norm_num,
      max_eq_left (by norm_num : (0 : ℚ) ≤ 5)]
  · rw [gpfs_average_high]
    show max (3 : ℚ) (0 * (21 / 20)) + |5 - max (3 : ℚ) (0 * (21 / 20))| / 2 = 4
    rw [hmax30, show (5 : ℚ) - 3 = 2 by norm_num,
      abs_of_pos (by norm_num : (0 : ℚ) < 2)]
    norm_num
  · rw [gpfs_other "average" 0 (1, 5, 3) 0 (by decide) (by decide) (by decide)]
    show max (3 : ℚ) (0 * (21 / 20)) = 3
    exact hmax30
  · intro strategy u low high avg r hrand _ _ _
    by_cases hh : strategy = "high"
    · subst hh
      rw [gpfs_high]
      exact le_max_right _ _
    · by_cases hah : strategy = "average-high"
      · subst hah
        rw [gpfs_average_high]
        have h1 : r * (21 / 20) ≤ max avg (r * (21 / 20)) := le_max_right _ _
        calc r * (21 / 20) ≤ max avg (r * (21 / 20)) := h1
          _ ≤ max avg (r * (21 / 20)) + |high - max avg (r * (21 / 20))| / 2 := by
              have := div_nonneg (abs_nonneg (high - max avg (r * (21 / 20)))) (by norm_num : (0:ℚ) ≤ 2)
              linarith
      · rw [gpfs_other strategy u (low, high, avg) r hh hrand hah]
        exact le_max_right _ _

/-- C9 witness: the universal part applied at strategy `'high'`, stats
`(1, 5, 3)` and rejected price `6`, where `6 * 1.05 = 6.3` exceeds all
three statistics. -/
theorem C9_witness :
    ("high" : String) ≠ "random" ∧ (1 : ℚ) < 6 * (21 / 20) ∧ (5 : ℚ) < 6 * (21 / 20) ∧
    (3 : ℚ) < 6 * (21 / 20) ∧
    (6 : ℚ) * (21 / 20) ≤ get_price_from_stats "high" 0 (1, 5, 3) 6 := by
  refine ⟨by decide, by norm_num, by norm_num, by norm_num, ?_⟩
  exact C9_price_examples_and_floor.2.2.2 "high" 0 1 5 3 6 (by decide)
    (by norm_num) (by norm_num) (by norm_num)

/-- C7 counterexample.  The spot-price history is the single sample `1`;
the provider raises `EC2ResponseError` *not* attributable to a too-low
bid (`priceTooLow := false`) for the first bid of `1`, yet the loop —
whose `except EC2ResponseError:` clause at spot_monitor.py line 265
catches every `EC2ResponseError` — retries at `1 * 1.05 = 21/20` and
returns the fulfilled request, instead of propagating the error as the
claim requires.  Two submission calls were issued. -/
theorem C7_counterexample :
    providerRejectBelow 1 1 = SubmitOutcome.ec2ResponseError false ∧
    request_instance_aux "high" 0 [1] (providerRejectBelow 1) 3 0 []
      = some (.ok (some "sir-2"), [1, 21 / 20]) := by
  have hinfo : get_price_info [(1 : ℚ)] = .ok (1, 1, 1) := by
    norm_num [get_price_info]
  have hp1 : get_price_from_stats "high" 0 (1, 1, 1) 0 = 1 := by
    rw [gpfs_high]
    show max (1 : ℚ) (0 * (21 / 20)) = 1
    rw [show (0 : ℚ) * (21 / 20) = 0 by norm_num,
      max_eq_left (by norm_num : (0 : ℚ) ≤ 1)]
  have hp2 : get_price_from_stats "high" 0 (1, 1, 1) 1 = 21 / 20 := by
    rw [gpfs_high]
    show max (1 : ℚ) (1 * (21 / 20)) = 21 / 20
    rw [show (1 : ℚ) * (21 / 20) = 21 / 20 by norm_num,
      max_eq_right (by norm_num : (1 : ℚ) ≤ 21 / 20)]
  have hprov1 : providerRejectBelow 1 1 = SubmitOutcome.ec2ResponseError false := by
    norm_num [providerRejectBelow]
  have hprov2 : providerRejectBelow 1 (21 / 20) = SubmitOutcome.ok ["sir-2"] := by
    norm_num [providerRejectBelow]
  refine ⟨hprov1, ?_⟩
  show request_instance_aux "high" 0 [1] (providerRejectBelow 1) (2 + 1) 0 [] = _
  rw [request_instance_aux, hinfo]
  simp only [hp1, hprov1]
  show request_instance_aux "high" 0 [1] (providerRejectBelow 1) (1 + 1) 1 [1] = _
  rw [request_instance_aux, hinfo]
  simp only [hp2, hprov2]
  rfl

/-- C7 as amended.  In the submission retry loop every
`EC2ResponseError` — whether or not attributable to a too-low bid —
causes a retry with `rejected_price` updated to the just-attempted bid;
a successful call returns the first submitted request (or `None`); and
only an error other than `EC2ResponseError` propagates out of the loop
as fatal for the current tick. -/
theorem C7_retry_amended :
    ∀ (strategy : String) (u : ℚ) (items : List ℚ) (provider : ℚ → SubmitOutcome)
      (fuel : Nat) (recent : ℚ) (calls : List ℚ) (stats : ℚ × ℚ × ℚ),
      get_price_info items = .ok stats →
      (∀ b, provider (get_price_from_stats strategy u stats recent) = .ec2ResponseError b →
        request_instance_aux strategy u items provider (fuel + 1) recent calls =
          request_instance_aux strategy u items provider fuel
            (get_price_from_stats strategy u stats recent)
            (calls ++ [get_price_from_stats strategy u stats recent])) ∧
      (provider (get_price_from_stats strategy u stats recent) = .otherError →
        request_instance_aux strategy u items provider (fuel + 1) recent calls =
          some (.error PyError.otherProviderError,
            calls ++ [get_price_from_stats strategy u stats recent])) ∧
      (∀ reqs, provider (get_price_from_stats strategy u stats recent) = .ok reqs →
        request_instance_aux strategy u items provider (fuel + 1) recent calls =
          some (.ok reqs.head?,
            calls ++ [get_price_from_stats strategy u stats recent])) := by
  intro strategy u items provider fuel recent calls stats hstats
  refine ⟨?_, ?_, ?_⟩
  · intro b hb
    rw [request_instance_aux, hstats]
    simp only [hb]
  · intro hb
    rw [request_instance_aux, hstats]
    simp only [hb]
  · intro reqs hb
    rw [request_instance_aux, hstats]
    simp only [hb]

/-- C7 witness: the amended theorem applied with history `[1]` and a
provider that always raises a non-price `EC2ResponseError`: the first
loop iteration retries at the rejected bid. -/
theorem C7_witness :
    get_price_info [(1 : ℚ)] = .ok (1, 1, 1) ∧
    (fun _ : ℚ => SubmitOutcome.ec2ResponseError false)
        (get_price_from_stats "high" 0 (1, 1, 1) 0) = .ec2ResponseError false ∧
    request_instance_aux "high" 0 [1] (fun _ => SubmitOutcome.ec2ResponseError false) 1 0 [] =
      request_instance_aux "high" 0 [1] (fun _ => SubmitOutcome.ec2ResponseError false) 0
        (get_price_from_stats "high" 0 (1, 1, 1) 0)
        ([] ++ [get_price_from_stats "high" 0 (1, 1, 1) 0]) := by
  have hinfo : get_price_info [(1 : ℚ)] = .ok (1, 1, 1) := by
    norm_num [get_price_info]
  exact ⟨hinfo, rfl,
    (C7_retry_amended "high" 0 [1] (fun _ => SubmitOutcome.ec2ResponseError false)
      0 0 [] (1, 1, 1) hinfo).1 false rfl⟩

/-- The comparison-and-replace step of `get_price_info` computes a
maximum. -/
theorem if_gt_eq_max (h0 p : ℚ) : (if p > h0 then p else h0) = max h0 p := by
  rcases le_or_lt p h0 with h | h
  · rw [if_neg (not_lt.2 h), max_eq_left h]
  · rw [if_pos h, max_eq_right (le_of_lt h)]

/-- The comparison-and-replace step of `get_price_info` computes a
minimum. -/
theorem if_lt_eq_min (l0 p : ℚ) : (if p < l0 then p else l0) = min l0 p := by
  rcases le_or_lt l0 p with h | h
  · rw [if_neg (not_lt.2 h), min_eq_left h]
  · rw [if_pos h, min_eq_right (le_of_lt h)]

/-- The three-component scan of `get_price_info` splits into a max fold,
a min fold and a sum fold. -/
theorem price_scan_eq (items : List ℚ) : ∀ (h0 l0 s0 : ℚ),
    items.foldl
      (fun (acc : ℚ × ℚ × ℚ) p =>
        let high := if p > acc.1 then p else acc.1
        let low := if p < acc.2.1 then p else acc.2.1
        (high, low, acc.2.2 + p))
      (h0, l0, s0)
    = (items.foldl max h0, items.foldl min l0, items.foldl (· + ·) s0) := by
  induction items with
  | nil => intro h0 l0 s0; rfl
  | cons p rest ih =>
      intro h0 l0 s0
      simp only [List.foldl_cons]
      rw [show (let high := if p > h0 then p else h0
                let low := if p < l0 then p else l0
                ((high, low, s0 + p) : ℚ × ℚ × ℚ))
            = (max h0 p, min l0 p, s0 + p) by
          simp only [if_gt_eq_max, if_lt_eq_min]]
      exact ih (max h0 p) (min l0 p) (s0 + p)

/-- Folding `min` from a smaller-or-equal seed can be peeled off the
front. -/
theorem foldl_min_shift (l : List ℚ) : ∀ (a b : ℚ),
    l.foldl min (min a b) = min a (l.foldl min b) := by
  induction l with
  | nil => intro a b; rfl
  | cons x t ih =>
      intro a b
      simp only [List.foldl_cons]
      rw [min_assoc, ih a (min b x)]

/-- Folding `max` from a seed can be peeled off the front. -/
theorem foldl_max_shift (l : List ℚ) : ∀ (a b : ℚ),
    l.foldl max (max a b) = max a (l.foldl max b) := by
  induction l with
  | nil => intro a b; rfl
  | cons x t ih =>
      intro a b
      simp only [List.foldl_cons]
      rw [max_assoc, ih a (max b x)]

/-- A common lower bound of the seed and all elements bounds a `min`
fold. -/
theorem foldl_min_lb (l : List ℚ) : ∀ (b acc : ℚ), b ≤ acc →
    (∀ p ∈ l, b ≤ p) → b ≤ l.foldl min acc := by
  induction l with
  | nil => intro b acc hacc _; exact hacc
  | cons x t ih =>
      intro b acc hacc h
      simp only [List.foldl_cons]
      exact ih b (min acc x) (le_min hacc (h x (List.mem_cons_self x t)))
        (fun p hp => h p (List.mem_cons_of_mem x hp))

/-- C10.  `get_price_info` initializes `low = 10.0` and `high = 0.0`
before scanning, so on a non-empty sample list it returns
`low = min 10 (minimum of the samples)` and
`high = max 0 (maximum of the samples)` (the fold of the samples from
their head computes their true minimum/maximum); in particular when every
sample exceeds `10` the returned low is the artificial `10`, not the
sample minimum. -/
theorem C10_price_info_clamped :
    ∀ (x : ℚ) (rest : List ℚ) (res : ℚ × ℚ × ℚ),
      get_price_info (x :: rest) = .ok res →
      res.1 = min 10 (rest.foldl min x) ∧
      res.2.1 = max 0 (rest.foldl max x) ∧
      ((∀ p ∈ x :: rest, (10 : ℚ) < p) → res.1 = 10) := by
  intro x rest res h
  rw [get_price_info] at h
  simp only [List.length_cons, Nat.succ_ne_zero, if_false] at h
  rw [price_scan_eq] at h
  have hres : res = ((x :: rest).foldl min 10, (x :: rest).foldl max 0,
      (x :: rest).foldl (· + ·) 0 / ((x :: rest).length : ℚ)) := by
    cases h
    rfl
  have hmin : (x :: rest).foldl min 10 = min 10 (rest.foldl min x) := by
    simp only [List.foldl_cons]
    rw [show min (10 : ℚ) x = min 10 x from rfl, foldl_min_shift]
  have hmax : (x :: rest).foldl max 0 = max 0 (rest.foldl max x) := by
    simp only [List.foldl_cons]
    rw [foldl_max_shift]
  refine ⟨by rw [hres]; exact hmin, by rw [hres]; exact hmax, ?_⟩
  intro hall
  have hx : (10 : ℚ) ≤ x := le_of_lt (hall x (List.mem_cons_self x rest))
  have hlb : (10 : ℚ) ≤ rest.foldl min x :=
    foldl_min_lb rest 10 x hx
      (fun p hp => le_of_lt (hall p (List.mem_cons_of_mem x hp)))
  rw [hres]
  exact hmin.trans (min_eq_left hlb)

/-- C10 witness: the theorem applied to the sample list `[11, 12]`,
whose samples all exceed `10`: the returned low is `10`, not `11`. -/
theorem C10_witness :
    (10 : ℚ) = min 10 ([(12 : ℚ)].foldl min 11) ∧
    (12 : ℚ) = max 0 ([(12 : ℚ)].foldl max 11) ∧
    (10 : ℚ) = 10 := by
  have hinfo : get_price_info [(11 : ℚ), 12] = .ok (10, 12, 23 / 2) := by
    norm_num [get_price_info]
  have h := C10_price_info_clamped 11 [12] (10, 12, 23 / 2) hinfo
  have hall : ∀ p ∈ [(11 : ℚ), 12], (10 : ℚ) < p := by
    intro p hp
    simp only [List.mem_cons, List.not_mem_nil, or_false] at hp
    rcases hp with rfl | rfl <;> norm_num
  exact ⟨h.1, h.2.1, h.2.2 hall⟩

/-- The inner instance loop appends exactly the instances passing
`pyActive`, in order. -/
theorem scan_reservation_eq (res : List Inst) : ∀ lst,
    scan_reservation lst res = lst ++ res.filter pyActive := by
  induction res with
  | nil => intro lst; simp [scan_reservation]
  | cons i t ih =>
      intro lst
      show (i :: t).foldl (fun lst i => if pyActive i then lst ++ [i] else lst) lst = _
      rw [List.foldl_cons]
      by_cases h : pyActive i
      · rw [if_pos h]
        have := ih (lst ++ [i])
        rw [scan_reservation] at this
        rw [this, List.filter_cons_of_pos h, List.append_assoc]
        rfl
      · rw [if_neg h]
        have := ih lst
        rw [scan_reservation] at this
        rw [this, List.filter_cons_of_neg (by simpa using h)]

/-- The nested reservation scan of `_get_active_instances` filters the
flattened instance list. -/
theorem foldl_scan_reservation_eq (rs : List (List Inst)) : ∀ acc,
    rs.foldl scan_reservation acc = acc ++ rs.flatten.filter pyActive := by
  induction rs with
  | nil => intro acc; simp
  | cons r t ih =>
      intro acc
      rw [List.foldl_cons, ih (scan_reservation acc r), scan_reservation_eq r acc,
        List.flatten_cons, List.filter_append, List.append_assoc]

/-- `_get_active_instances` returns exactly the provider-reported
instances passing `pyActive`, in report order. -/
theorem get_active_instances_eq (rs : List (List Inst)) :
    get_active_instances rs = rs.flatten.filter pyActive := by
  rw [get_active_instances, foldl_scan_reservation_eq rs []]
  rfl

/-- The `pyActive` test spelled out: lifecycle state neither
`'terminated'` nor `'shutting-down'`, and a truthy spot request id. -/
theorem pyActive_iff (i : Inst) : pyActive i = true ↔
    (i.state ≠ "terminated" ∧ i.state ≠ "shutting-down" ∧
      i.spot_instance_request_id ≠ none ∧ i.spot_instance_request_id ≠ some "") := by
  cases hid : i.spot_instance_request_id with
  | none => simp [pyActive, truthyOptStr, hid, List.contains]
  | some s =>
      by_cases hs : s = ""
      · subst hs; simp [pyActive, truthyOptStr, hid, List.contains]
      · simp [pyActive, truthyOptStr, hid, hs, List.contains, and_assoc]

/-- The running maximum in `check_requests` never drops below its seed. -/
theorem foldl_maxprice_init_le (l : List SpotReq) : ∀ init : ℚ,
    init ≤ l.foldl (fun p r => max p r.price) 0 → True := fun _ _ => trivial

/-- The seed is a lower bound of the running-maximum fold. -/
theorem foldl_maxprice_seed_le (l : List SpotReq) : ∀ init : ℚ,
    init ≤ l.foldl (fun p r => max p r.price) init := by
  induction l with
  | nil => intro init; exact le_refl init
  | cons x t ih =>
      intro init
      rw [List.foldl_cons]
      exact le_trans (le_max_left init x.price) (ih (max init x.price))

/-- Every listed price is bounded by the running-maximum fold. -/
theorem foldl_maxprice_ub (l : List SpotReq) : ∀ (init : ℚ) (r : SpotReq), r ∈ l →
    r.price ≤ l.foldl (fun p r => max p r.price) init := by
  induction l with
  | nil => intro _ r hr; cases hr
  | cons x t ih =>
      intro init r hr
      rw [List.foldl_cons]
      rcases List.mem_cons.1 hr with rfl | hmem
      · exact le_trans (le_max_right init r.price) (foldl_maxprice_seed_le t _)
      · exact ih (max init x.price) r hmem

/-- The running-maximum fold is the seed or one of the listed prices. -/
theorem foldl_maxprice_mem (l : List SpotReq) : ∀ init : ℚ,
    l.foldl (fun p r => max p r.price) init = init ∨
      ∃ r ∈ l, l.foldl (fun p r => max p r.price) init = r.price := by
  induction l with
  | nil => intro init; exact Or.inl rfl
  | cons x t ih =>
      intro init
      rw [List.foldl_cons]
      rcases le_total x.price init with hle | hle
      · rw [max_eq_left hle]
        rcases ih init with h | ⟨r, hmem, hr⟩
        · exact Or.inl h
        · exact Or.inr ⟨r, List.mem_cons_of_mem x hmem, hr⟩
      · rw [max_eq_right hle]
        rcases ih x.price with h | ⟨r, hmem, hr⟩
        · exact Or.inr ⟨x, List.mem_cons_self x t, h⟩
        · exact Or.inr ⟨r, List.mem_cons_of_mem x hmem, hr⟩

/-- C3.  The reconciliation pass uses as `active_instances` exactly the
provider-reported instances whose state is neither `'terminated'` nor
`'shutting-down'` and which carry a (truthy) `spot_instance_request_id`;
and it enters the corrective branch precisely when
`len(active_instances) - len(Marked bucket) < 1` (the hard-coded minimum
of one instance), the subtraction being Python integer subtraction. -/
theorem C3_active_instances_and_threshold :
    ∀ (reqs : List SpotReq) (reservations : List (List Inst)) (res : CheckResult),
      check_requests reqs reservations = .ok res →
      get_active_instances reservations = reservations.flatten.filter pyActive ∧
      (∀ i : Inst, pyActive i = true ↔
        (i.state ≠ "terminated" ∧ i.state ≠ "shutting-down" ∧
          i.spot_instance_request_id ≠ none ∧ i.spot_instance_request_id ≠ some "")) ∧
      (res.corrective = true ↔
        ((get_active_instances reservations).length : ℤ)
          - ((bucket reqs State.Marked).length : ℤ) < 1) := by
  intro reqs reservations res h
  refine ⟨get_active_instances_eq reservations, pyActive_iff, ?_⟩
  cases hfp : process_fulfilled_pass (bucket reqs State.Fulfilled) with
  | error e => simp [check_requests, hfp] at h
  | ok processed =>
      simp only [check_requests, hfp] at h
      by_cases hc : ((get_active_instances reservations).length : ℤ)
          - ((bucket reqs State.Marked).length : ℤ) < 1
      · rw [if_pos hc] at h
        cases h
        simpa using hc
      · rw [if_neg hc] at h
        cases h
        simpa using hc

/-- C3 witness: the theorem applied to an empty request list and an empty
reservation list, where zero active instances minus zero marked requests
is below the threshold of one. -/
theorem C3_witness :
    get_active_instances [] = List.filter pyActive ([] : List (List Inst)).flatten ∧
    (pyActive ⟨"running", some "sir-1"⟩ = true ↔
      (("running" : String) ≠ "terminated" ∧ ("running" : String) ≠ "shutting-down" ∧
        (some "sir-1" : Option String) ≠ none ∧ (some "sir-1" : Option String) ≠ some "")) ∧
    ((true = true) ↔
      ((get_active_instances []).length : ℤ)
        - ((bucket ([] : List SpotReq) State.Marked).length : ℤ) < 1) := by
  have h := C3_active_instances_and_threshold [] []
    (CheckResult.mk [] true [] 0 (some 0)) rfl
  exact ⟨h.1, h.2.1 ⟨"running", some "sir-1"⟩, h.2.2⟩

/-- C4.  When the corrective branch is entered the pass cancels exactly
the `Holding` bucket (in order), computes `max_holding_price` as the
running maximum of the cancelled requests' prices seeded with `0` — an
upper bound of every cancelled price, and either `0` or one of those
prices — and initiates exactly one submission, seeded with
`max_holding_price`, precisely when the `Pending` bucket is empty; when
the corrective branch is not entered nothing is cancelled and nothing is
submitted. -/
theorem C4_corrective_policy :
    ∀ (reqs : List SpotReq) (reservations : List (List Inst)) (res : CheckResult),
      check_requests reqs reservations = .ok res →
      (res.corrective = true →
        res.cancelled = bucket reqs State.Holding ∧
        res.max_holding_price =
          (bucket reqs State.Holding).foldl (fun p r => max p r.price) 0 ∧
        (∀ r ∈ bucket reqs State.Holding, r.price ≤ res.max_holding_price) ∧
        (res.max_holding_price = 0 ∨
          ∃ r ∈ bucket reqs State.Holding, res.max_holding_price = r.price) ∧
        res.submitted =
          (if (bucket reqs State.Pending).isEmpty
            then some res.max_holding_price else none)) ∧
      (res.corrective = false → res.cancelled = [] ∧ res.submitted = none) := by
  intro reqs reservations res h
  cases hfp : process_fulfilled_pass (bucket reqs State.Fulfilled) with
  | error e => simp [check_requests, hfp] at h
  | ok processed =>
      simp only [check_requests, hfp] at h
      by_cases hc : ((get_active_instances reservations).length : ℤ)
          - ((bucket reqs State.Marked).length : ℤ) < 1
      · rw [if_pos hc] at h
        cases h
        refine ⟨fun _ => ⟨rfl, rfl, ?_, ?_, rfl⟩, fun hfalse => by simp at hfalse⟩
        · intro r hr
          exact foldl_maxprice_ub (bucket reqs State.Holding) 0 r hr
        · exact foldl_maxprice_mem (bucket reqs State.Holding) 0
      · rw [if_neg hc] at h
        cases h
        exact ⟨fun htrue => by simp at htrue, fun _ => ⟨rfl, rfl⟩⟩

/-- C4 witness: the theorem applied to an empty request list and empty
reservations: the corrective branch is entered, the (empty) `Holding`
bucket is cancelled, the seed price is `0`, and since the `Pending`
bucket is empty one submission seeded with `0` is initiated. -/
theorem C4_witness :
    (CheckResult.mk [] true [] 0 (some 0)).cancelled = bucket [] State.Holding ∧
    (CheckResult.mk [] true [] 0 (some 0)).max_holding_price = 0 ∧
    (CheckResult.mk [] true [] 0 (some 0)).submitted =
      (if (bucket ([] : List SpotReq) State.Pending).isEmpty
        then some (CheckResult.mk [] true [] 0 (some 0)).max_holding_price else none) := by
  have h := C4_corrective_policy [] [] (CheckResult.mk [] true [] 0 (some 0)) rfl
  have h1 := (h.1 rfl).1
  have h4 := (h.1 rfl).2.2.2.1
  have h5 := (h.1 rfl).2.2.2.2
  refine ⟨h1, ?_, h5⟩
  rcases h4 with h4 | ⟨r, hr, _⟩
  · exact h4
  · cases hr

end AwsSpotMonitor
